import Mathlib

/-!
Shallow embedding of the backlite dispatcher (dispatcher.go, queue.go) and the
parts of its task store contract that the dispatcher relies on.

Conventions of the embedding:
* instants and durations are `Int` (the store keeps integer timestamps);
* payload bytes are `List Nat`;
* Go `nil` pointers / optional columns are `Option`;
* the `internal/task` package is not part of the provided sources, so its row
  operations (`Fail`, `DeleteTx`, `InsertTx`, `DeleteExpiredCompleted`) are
  modelled from the spec where needed, each marked in its doc comment.
-/

namespace Backlite

/-- `RetainData` from queue.go: policy for retaining the task payload in the
completion row.  `onlyFailed` is documented in queue.go as: payload data should
only be retained for failed tasks. -/
structure RetainData where
  onlyFailed : Bool
deriving Repr, DecidableEq

/-- `Retention` from queue.go: policy for retaining completed tasks. -/
structure Retention where
  /-- amount of time to retain a task for after completion; `0` ("omitted")
  means retained forever. Go stores a `time.Duration` (integer nanoseconds). -/
  duration : Int
  /-- retain only failed tasks. -/
  onlyFailed : Bool
  /-- payload-retention policy; `none` means no payload data is retained. -/
  data : Option RetainData
deriving Repr, DecidableEq

/-- The fields of `QueueConfig` (queue.go) that the dispatcher outcome paths
read: `MaxAttempts`, `Backoff` and `Retention`. -/
structure QueueConfig where
  name : String
  maxAttempts : Int
  backoff : Int
  retention : Option Retention
deriving Repr, DecidableEq

/-- A pending task row / in-memory `task.Task` as the dispatcher sees it
(columns of `backlite_tasks` in internal/query/schema.sql). -/
structure PTask where
  id : String
  queue : String
  /-- the opaque payload bytes (`task LONGBLOB`). -/
  task : List Nat
  attempts : Int
  waitUntil : Option Int
  createdAt : Int
  lastExecutedAt : Option Int
  claimedAt : Option Int
deriving Repr, DecidableEq

/-- A completion row / `task.Completed` (columns of `backlite_tasks_completed`).
`task = none` models the Go zero value (`nil` slice): no payload persisted. -/
structure Completed where
  id : String
  queue : String
  attempts : Int
  succeeded : Bool
  lastDuration : Int
  createdAt : Int
  lastExecutedAt : Int
  expiresAt : Option Int
  error : Option String
  task : Option (List Nat)
deriving Repr, DecidableEq

/-- `dispatcher.taskComplete` (dispatcher.go:495-536), as the completion row it
inserts into the open transaction: `none` means no row is inserted (nil
retention, or a succeeded task under `Retention.OnlyFailed`).  `started`,
`dur`, `now` are the wall-clock arguments; `taskErr` is the processor error
(`none` on success). -/
def taskComplete (ret : Option Retention) (t : PTask) (started dur now : Int)
    (taskErr : Option String) : Option Completed :=
  match ret with
  | none => none
  | some ret =>
    if taskErr.isNone && ret.onlyFailed then
      none
    else
      some
        { id := t.id
          queue := t.queue
          attempts := t.attempts
          succeeded := taskErr.isNone
          lastDuration := dur
          createdAt := t.createdAt
          lastExecutedAt := started
          error := taskErr
          expiresAt := if ret.duration != 0 then some (now + ret.duration) else none
          -- dispatcher.go:531-533 keys only on `ret.Data != nil`; the
          -- `RetainData.OnlyFailed` field is never consulted.
          task := if ret.data.isSome then some t.task else none }

/-- Whether a completion row is expired at `now`:
`expires_at IS NOT NULL AND expires_at <= now`. -/
def Completed.isExpired (c : Completed) (now : Int) : Bool :=
  match c.expiresAt with
  | some e => decide (e ≤ now)
  | none => false

/-- Modelled from the spec: `DeleteExpiredCompleted(ctx)` of the task store
(package internal/task, absent from the provided sources) removes the rows
where `expires_at IS NOT NULL AND expires_at <= now`. -/
def deleteExpiredCompleted (rows : List Completed) (now : Int) : List Completed :=
  rows.filter (fun c => ! c.isExpired now)

/-- Concrete retention policy for the C2 failing input: payload retention is
configured with `Data.OnlyFailed = true`. -/
def c2ret : Retention := { duration := 0, onlyFailed := false, data := some { onlyFailed := true } }

/-- Concrete task for the C2 failing input: a non-empty payload. -/
def c2task : PTask :=
  { id := "t1", queue := "q", task := [1, 2, 3], attempts := 1, waitUntil := none,
    createdAt := 0, lastExecutedAt := none, claimedAt := none }

/-- Modelled from the spec: `Fail(ctx, id, waitUntil)` of the task store
(package internal/task, absent from the provided sources) "clears `claimed_at`,
sets `wait_until = waitUntil`, records `last_executed_at`, increments
`attempts`".  `last_executed_at` is recorded from the in-memory row, which
`taskFailure` has already set (dispatcher.go:474). -/
def PTask.fail (t : PTask) (waitUntil : Int) : PTask :=
  { t with claimedAt := none, waitUntil := some waitUntil, attempts := t.attempts + 1 }

/-- The effect of one invocation of `dispatcher.taskFailure` on the stored
state of the task. -/
inductive FailureOutcome where
  /-- attempts remain: the pending row is updated in place via `Fail`. -/
  | retried (row : PTask)
  /-- attempts exhausted: in one transaction the pending row is deleted and the
  optional completion row is inserted. -/
  | terminal (row : Option Completed)
deriving Repr, DecidableEq

/-- `dispatcher.taskFailure` (dispatcher.go:421-493).  `remaining` is
`MaxAttempts - t.Attempts`; with fewer than 1 remaining the task is moved to
completion (delete + optional insert in one transaction, via `taskComplete`),
otherwise `LastExecutedAt` is set to `started` and the row fails with
`wait_until = now + Backoff`. -/
def taskFailure (cfg : QueueConfig) (t : PTask) (started dur now : Int)
    (taskErr : String) : FailureOutcome :=
  let remaining := cfg.maxAttempts - t.attempts
  if remaining < 1 then
    .terminal (taskComplete cfg.retention t started dur now (some taskErr))
  else
    .retried (PTask.fail { t with lastExecutedAt := some started } (now + cfg.backoff))

/-- `dispatcher.taskSuccess` (dispatcher.go:371-419), as the optional
completion row it inserts in the same transaction that deletes the pending
row. -/
def taskSuccess (cfg : QueueConfig) (t : PTask) (started dur now : Int) : Option Completed :=
  taskComplete cfg.retention t started dur now none

/-- Result of running a queue processor on a task: it returns nil, returns an
error, or panics (the panic value rendered by its string form, as `%v`
would). -/
inductive ProcResult where
  | ok
  | err (e : String)
  | panicked (v : String)
deriving Repr, DecidableEq

/-- `fmt.Errorf("%v", rec)` in the recover handler (dispatcher.go:356): the
error message is the panic value's string form. -/
def recoverToError (v : String) : String := v

/-- What `dispatcher.processTask` does to the task after the processor runs. -/
inductive ProcessOutcome where
  /-- `taskSuccess` ran: pending row deleted, optional completion row. -/
  | succeeded (row : Option Completed)
  /-- `taskFailure` ran. -/
  | failed (f : FailureOutcome)
deriving Repr, DecidableEq

/-- `dispatcher.processTask` (dispatcher.go:324-369): on a nil error from
`Receive` the success path runs; on an error the failure path runs; on a panic
the deferred handler recovers, converts the panic value to an error via
`fmt.Errorf("%v", rec)` and runs the failure path with it.  The function is
total: every processor result yields an outcome, the dispatcher does not
crash. -/
def processTask (cfg : QueueConfig) (t : PTask) (started dur now : Int)
    (r : ProcResult) : ProcessOutcome :=
  match r with
  | .ok => .succeeded (taskSuccess cfg t started dur now)
  | .err e => .failed (taskFailure cfg t started dur now e)
  | .panicked v => .failed (taskFailure cfg t started dur now (recoverToError v))

/-- The committed contents of the two tables, projected to the task ids they
hold (`id` is the primary key of both). -/
structure DB where
  pending : List String
  completed : List String
deriving Repr, DecidableEq

/-- The single transaction of the success path (dispatcher.go:404-418) and of
the terminal-failure path (dispatcher.go:458-472): `Begin`, `DeleteTx`,
`taskComplete` (optional `InsertTx`), `Commit`.  `DeleteTx` and `InsertTx` are
modelled from the spec (package internal/task is absent from the provided
sources): delete the pending row with the given id; insert the completion row.
The whole transaction is one step of the model, so the committed states are
exactly the pre-state and the post-state: no intermediate state is ever
committed. -/
def commitOutcome (db : DB) (id : String) (row : Option Completed) : DB :=
  { pending := db.pending.filter (fun x => x ≠ id)
    completed :=
      match row with
      | some c => c.id :: db.completed
      | none => db.completed }

/-- The first event the `select` in `dispatcher.stop` serves: either the
caller's context fires, or one worker token arrives on `availableWorkers`. -/
inductive StopEvent where
  | ctxDone
  | workerToken
deriving Repr, DecidableEq

/-- `dispatcher.stop` (dispatcher.go:101-122), as the number of worker tokens
it has received from `availableWorkers` when it returns, given whether the
dispatcher is running and the first event its `select` serves.  The `select`
statement is not wrapped in a loop: after the token case runs (`count` is now
1), either `count == numWorkers` triggers the early return, or control falls
out of the `select` and the function returns anyway — both with one token
received. -/
def stopTokens (running : Bool) (numWorkers : Nat) (firstEvent : StopEvent) : Nat :=
  if !running then 0
  else
    match firstEvent with
    | .ctxDone => 0
    | .workerToken =>
      let count := 1
      if count = numWorkers then count else count

/-- One iteration of `dispatcher.triggerer` (dispatcher.go:128-143) serving a
`ready` signal: `triggered.CompareAndSwap(false, true)` — when the flag is
false it becomes true and one item is emitted on `trigger`; when it is already
true the signal is dropped.  Returns (new flag, triggers emitted). -/
def triggererStep (triggered : Bool) : Bool × Nat :=
  if triggered then (triggered, 0) else (true, 1)

/-- The coalescer serving `m` consecutive `ready` signals starting from the
given flag state: (final flag, total triggers emitted).  Each emitted trigger
makes the fetcher run exactly one additional fetch (dispatcher.go:160-161). -/
def triggererRun : Bool → Nat → Bool × Nat
  | b, 0 => (b, 0)
  | b, m + 1 =>
    let s := triggererStep b
    let r := triggererRun s.1 m
    (r.1, s.2 + r.2)

/-- `d.triggered.Store(false)` at the start of every fetch
(dispatcher.go:240): the flag state a fetch leaves for the coalescer. -/
def fetchResetTriggered : Bool := false

/-- `tasks[i].WaitUntil != nil && tasks[i].WaitUntil.After(time.Now())`
(dispatcher.go:275-279): the task is not ready yet. -/
def taskIsFuture (now : Int) (t : PTask) : Bool :=
  match t.waitUntil with
  | some w => decide (now < w)
  | none => false

/-- The `limit` argument `int(workers)+1` that `fetch` passes to
`GetScheduledTasks` (dispatcher.go:247-252): at most `W + 1` rows are
requested. -/
def fetchLimit (workers : Nat) : Nat := workers + 1

/-- The loop of `dispatcher.fetch` over the fetched list
(dispatcher.go:261-281), walking from index `i`: when `(i+1) > workers` or the
task at `i` is not ready yet, `nextUp(i)` keeps `tasks[:i]` as the claim set
and designates `tasks[i]` as `next`.  Returns (tasks claimed and delivered,
`next`). -/
def fetchSplitFrom (workers : Nat) (now : Int) : Nat → List PTask → List PTask × Option PTask
  | _, [] => ([], none)
  | i, t :: rest =>
    if workers < i + 1 then
      ([], some t)
    else if taskIsFuture now t then
      ([], some t)
    else
      let r := fetchSplitFrom workers now (i + 1) rest
      (t :: r.1, r.2)

/-- The walk of `dispatcher.fetch` starting at index 0. -/
def fetchSplit (workers : Nat) (now : Int) (tasks : List PTask) : List PTask × Option PTask :=
  fetchSplitFrom workers now 0 tasks

/-- The externally visible effect of `dispatcher.schedule`. -/
inductive ScheduleEffect where
  /-- the ticker is stopped and not re-armed. -/
  | tickerStopped
  /-- one `ready` signal is sent immediately (the ticker stays stopped). -/
  | readySignal
  /-- the ticker is reset to fire after `dur`. -/
  | tickerReset (dur : Int)
deriving Repr, DecidableEq

/-- `dispatcher.schedule` (dispatcher.go:304-322): the ticker is stopped
first; with no next task nothing more happens; with a next task that has no
`wait_until`, or whose `wait_until - now` is negative, one `ready` signal is
sent; otherwise the ticker is reset to `wait_until - now`. -/
def schedule (t : Option PTask) (now : Int) : ScheduleEffect :=
  match t with
  | none => .tickerStopped
  | some t =>
    match t.waitUntil with
    | none => .readySignal
    | some w =>
      if w - now < 0 then .readySignal else .tickerReset (w - now)

/-- `queue.Receive` (queue.go:86-98), for a queue whose payload decoder is
`decode` and whose processor is `proc`: decode the payload; on a decode error
return it without invoking the processor; otherwise invoke the processor on
the decoded value and return its result.  The second component is the list of
arguments the processor was invoked with, in order. -/
def Receive {T : Type} (decode : List Nat → Except String T)
    (proc : T → Option String) (payload : List Nat) : Option String × List T :=
  match decode payload with
  | .error e => (some e, [])
  | .ok obj => (proc obj, [obj])

/-! Concrete inputs used by witnesses and evaluations. -/

/-- Decoder for the C9 witness: fails on an empty payload, otherwise decodes
the head. -/
def c9decode : List Nat → Except String Nat
  | [] => Except.error "unexpected end of input"
  | x :: _ => Except.ok x

/-- Processor for the C9 witness: always succeeds. -/
def c9proc : Nat → Option String := fun _ => none

/-! Theorems. -/

/-- C1: the claim states that `stop` returns only once the caller's context
fires or all `numWorkers` worker tokens have been received.  The code's
`select` is not wrapped in a loop (dispatcher.go:111-121), so with
`numWorkers = 2`, the dispatcher running and the context not fired, `stop`
returns after receiving a single worker token — fewer than `numWorkers`. -/
theorem c1_stop_returns_after_one_token :
    stopTokens true 2 StopEvent.workerToken = 1 ∧ stopTokens true 2 StopEvent.workerToken < 2 := by
  decide

/-- C2: the claim states that with `Retention.Data.OnlyFailed = true` the
payload is persisted only for failed tasks.  Evaluating `taskComplete` at a
succeeded task (`taskErr = none`) under such a policy shows the payload
`[1, 2, 3]` is persisted anyway: dispatcher.go:531-533 never reads
`RetainData.OnlyFailed`, contradicting that field's documentation in
queue.go. -/
theorem c2_payload_retained_for_succeeded_task :
    (taskComplete (some c2ret) c2task 0 0 0 none).map Completed.task = some (some [1, 2, 3]) := by
  decide

/-- After the flag is up, every further `ready` signal is dropped and the flag
stays up. -/
lemma triggererRun_true (m : Nat) : triggererRun true m = (true, 0) := by
  induction m with
  | zero => rfl
  | succ m ih => simp [triggererRun, triggererStep, ih]

/-- C5: starting from the flag state a fetch leaves (`triggered = false`,
reset at the start of every fetch), serving `M ≥ 1` `ready` signals emits
exactly one trigger — the flag transitions false-to-true once and every later
signal is dropped — hence exactly one additional fetch. -/
theorem c5_coalescing (M : Nat) (h : 1 ≤ M) :
    triggererRun fetchResetTriggered M = (true, 1) := by
  cases M with
  | zero => exact absurd h (by decide)
  | succ m => simp [fetchResetTriggered, triggererRun, triggererStep, triggererRun_true]

/-- Witness for C5 at `M = 4`. -/
theorem c5_coalescing_witness : 1 ≤ 4 ∧ triggererRun fetchResetTriggered 4 = (true, 1) :=
  ⟨by decide, c5_coalescing 4 (by decide)⟩

/-- C7: `schedule` stops the ticker and does not re-arm it when `next` is nil;
sends one `ready` signal when `next` has no `wait_until` or when
`wait_until - now` is negative; otherwise resets the ticker to
`wait_until - now`. -/
theorem c7_schedule (now w : Int) (t : PTask) :
    schedule none now = ScheduleEffect.tickerStopped ∧
    schedule (some { t with waitUntil := none }) now = ScheduleEffect.readySignal ∧
    schedule (some { t with waitUntil := some w }) now =
      (if w - now < 0 then ScheduleEffect.readySignal else ScheduleEffect.tickerReset (w - now)) :=
  ⟨rfl, rfl, rfl⟩

/-- C8: a processor panic is recovered and handled exactly as if the processor
had returned the error produced by `fmt.Errorf` on the panic value, whose
message is the panic value's string form; `processTask` is total, so the
dispatcher does not crash on a panic. -/
theorem c8_panic_handled_as_error (cfg : QueueConfig) (t : PTask) (started dur now : Int)
    (v : String) :
    processTask cfg t started dur now (ProcResult.panicked v) =
      processTask cfg t started dur now (ProcResult.err (recoverToError v)) ∧
    recoverToError v = v :=
  ⟨rfl, rfl⟩

/-- C9: when the payload does not decode, `Receive` returns the decode error
and the processor is never invoked; when it decodes to `v`, the processor is
invoked exactly once, with `v`, and its result is returned. -/
theorem c9_receive_decode_gate (T : Type) (decode : List Nat → Except String T)
    (proc : T → Option String) (payload : List Nat) :
    (∀ e, decode payload = Except.error e → Receive decode proc payload = (some e, [])) ∧
    (∀ v, decode payload = Except.ok v → Receive decode proc payload = (proc v, [v])) := by
  constructor
  · intro e he
    simp [Receive, he]
  · intro v hv
    simp [Receive, hv]

/-- Witness for C9 on a failing and a succeeding payload of `c9decode`. -/
theorem c9_receive_decode_gate_witness :
    Receive c9decode c9proc [] = (some "unexpected end of input", []) ∧
    Receive c9decode c9proc [7] = (none, [7]) :=
  ⟨(c9_receive_decode_gate Nat c9decode c9proc []).1 "unexpected end of input" rfl,
   (c9_receive_decode_gate Nat c9decode c9proc [7]).2 7 rfl⟩

/-- C10: for every completion row written by `taskComplete`, `expires_at` is
`now + Retention.Duration` exactly when `Duration` is non-zero; with a zero
`Duration` the row carries no expiry, and `deleteExpiredCompleted` keeps every
row without an expiry, so the record is retained forever. -/
theorem c10_retention_expiry (ret : Retention) (t : PTask) (started dur now : Int)
    (taskErr : Option String) (c : Completed) (rows : List Completed) (now2 : Int)
    (h : taskComplete (some ret) t started dur now taskErr = some c) :
    (c.expiresAt = some (now + ret.duration) ↔ ret.duration ≠ 0) ∧
    (ret.duration = 0 →
      c.expiresAt = none ∧ (c ∈ rows → c ∈ deleteExpiredCompleted rows now2)) := by
  by_cases hs : (taskErr.isNone && ret.onlyFailed) = true
  · simp [taskComplete, hs] at h
  · simp only [taskComplete, hs, if_false, Bool.false_eq_true, Option.some.injEq] at h
    subst h
    by_cases hd : ret.duration = 0
    · simp [hd]
      intro hmem
      simp [deleteExpiredCompleted, List.mem_filter, hmem, Completed.isExpired, hd]
    · simp [hd]

/-- Retention policy for the C10 witness: zero duration, retain forever. -/
def c10ret : Retention := { duration := 0, onlyFailed := false, data := none }

/-- Task for the C10 witness. -/
def c10task : PTask :=
  { id := "t10", queue := "q", task := [4], attempts := 1, waitUntil := none,
    createdAt := 0, lastExecutedAt := none, claimedAt := none }

/-- The completion row `taskComplete` writes for the C10 witness input. -/
def c10row : Completed :=
  { id := "t10", queue := "q", attempts := 1, succeeded := true, lastDuration := 3,
    createdAt := 0, lastExecutedAt := 2, expiresAt := none, error := none, task := none }

/-- Witness for C10: the zero-duration row has no expiry and survives
`deleteExpiredCompleted` at any time. -/
theorem c10_retention_expiry_witness :
    c10row.expiresAt = none ∧ c10row ∈ deleteExpiredCompleted [c10row] 999999 :=
  ⟨((c10_retention_expiry c10ret c10task 2 3 5 none c10row [c10row] 999999 (by decide)).2 rfl).1,
   ((c10_retention_expiry c10ret c10task 2 3 5 none c10row [c10row] 999999 (by decide)).2 rfl).2
     (by decide)⟩

/-- Queue configuration for the C4 counterexample: nil Retention. -/
def c4cfg : QueueConfig := { name := "q", maxAttempts := 1, backoff := 5, retention := none }

/-- Task for the C4 counterexample: attempts exhausted. -/
def c4task : PTask :=
  { id := "t4", queue := "q", task := [9], attempts := 1, waitUntil := none,
    createdAt := 0, lastExecutedAt := none, claimedAt := some 0 }

/-- C4 counterexample: a terminal failure on a queue with nil `Retention`
deletes the pending row but writes no completion row at all, so "a completion
row with succeeded=false and the error string is written" fails as stated. -/
theorem c4_no_completion_row_when_retention_nil :
    taskFailure c4cfg c4task 0 0 0 "boom" = FailureOutcome.terminal none := by
  decide

/-- C4 (amended): on a processor error, when `MaxAttempts - attempts ≥ 1` the
row is failed in place with `wait_until = now + Backoff`, `claimed_at` cleared
and `last_executed_at = started`; otherwise, in one transaction, the pending
row is deleted and — when the queue's `Retention` is non-nil — a completion
row with `succeeded = false` and the error string is written (with nil
`Retention` no completion row is written). -/
theorem c4_taskFailure_behaviour (cfg : QueueConfig) (t : PTask) (started dur now : Int)
    (e : String) :
    (1 ≤ cfg.maxAttempts - t.attempts →
      taskFailure cfg t started dur now e =
        FailureOutcome.retried
          (PTask.fail { t with lastExecutedAt := some started } (now + cfg.backoff)) ∧
      (PTask.fail { t with lastExecutedAt := some started } (now + cfg.backoff)).waitUntil =
        some (now + cfg.backoff) ∧
      (PTask.fail { t with lastExecutedAt := some started } (now + cfg.backoff)).claimedAt =
        none ∧
      (PTask.fail { t with lastExecutedAt := some started } (now + cfg.backoff)).lastExecutedAt =
        some started) ∧
    (cfg.maxAttempts - t.attempts < 1 →
      taskFailure cfg t started dur now e =
        FailureOutcome.terminal (taskComplete cfg.retention t started dur now (some e)) ∧
      (cfg.retention = none → taskComplete cfg.retention t started dur now (some e) = none) ∧
      ∀ ret, cfg.retention = some ret →
        (taskComplete cfg.retention t started dur now (some e)).map
          (fun c => (c.succeeded, c.error)) = some (false, some e)) := by
  constructor
  · intro h
    have hc : ¬ (cfg.maxAttempts - t.attempts < 1) := by omega
    exact ⟨by simp [taskFailure, hc], rfl, rfl, rfl⟩
  · intro h
    refine ⟨by simp [taskFailure, h], fun hr => by simp [taskComplete, hr], fun ret hr => ?_⟩
    simp [taskComplete, hr]

/-- Queue configuration for the retry branch of the C4 witness. -/
def c4cfgR : QueueConfig := { name := "q", maxAttempts := 3, backoff := 5, retention := none }

/-- Task for the retry branch of the C4 witness: two attempts remaining. -/
def c4taskR : PTask :=
  { id := "t4r", queue := "q", task := [], attempts := 1, waitUntil := none,
    createdAt := 0, lastExecutedAt := none, claimedAt := some 2 }

/-- Witness for C4 exercising both branches: a retriable failure and a
terminal one. -/
theorem c4_taskFailure_behaviour_witness :
    taskFailure c4cfgR c4taskR 10 1 20 "boom" =
      FailureOutcome.retried
        (PTask.fail { c4taskR with lastExecutedAt := some 10 } (20 + c4cfgR.backoff)) ∧
    taskFailure c4cfg c4task 0 0 0 "boom" =
      FailureOutcome.terminal (taskComplete c4cfg.retention c4task 0 0 0 (some "boom")) :=
  ⟨((c4_taskFailure_behaviour c4cfgR c4taskR 10 1 20 "boom").1 (by decide)).1,
   ((c4_taskFailure_behaviour c4cfg c4task 0 0 0 "boom").2 (by decide)).1⟩

/-- Every completion row `taskComplete` writes carries the task's own id. -/
lemma taskComplete_id (ret : Option Retention) (t : PTask) (started dur now : Int)
    (taskErr : Option String) (c : Completed)
    (h : taskComplete ret t started dur now taskErr = some c) : c.id = t.id := by
  cases ret with
  | none => simp [taskComplete] at h
  | some ret =>
    by_cases hs : (taskErr.isNone && ret.onlyFailed) = true
    · simp [taskComplete, hs] at h
    · simp only [taskComplete, hs, if_false, Bool.false_eq_true, Option.some.injEq] at h
      subst h
      rfl

/-- After one `commitOutcome` transaction on `id`, the id is gone from the
pending table and is in the completed table exactly when a row was due. -/
lemma commitOutcome_spec (db : DB) (id : String) (row : Option Completed)
    (hc : id ∉ db.completed) (hid : ∀ c, row = some c → c.id = id) :
    id ∉ (commitOutcome db id row).pending ∧
    (id ∈ (commitOutcome db id row).completed ↔ row.isSome = true) := by
  constructor
  · simp [commitOutcome, List.mem_filter]
  · cases row with
    | none => simpa [commitOutcome] using hc
    | some c =>
      have : c.id = id := hid c rfl
      simp [commitOutcome, this]

/-- C6: the success path and the terminal-failure path are each a single
transaction deleting the pending row and inserting the optional completion
row, so no committed state shows the id in both tables, and when a completion
row is due the id lands in the completed table in the very commit that removes
it from the pending one. -/
theorem c6_atomic_move (db : DB) (cfg : QueueConfig) (t : PTask) (started dur now : Int)
    (e : String) (hc : t.id ∉ db.completed) :
    (t.id ∉ (commitOutcome db t.id (taskSuccess cfg t started dur now)).pending ∧
      (t.id ∈ (commitOutcome db t.id (taskSuccess cfg t started dur now)).completed ↔
        (taskSuccess cfg t started dur now).isSome = true)) ∧
    (∀ row, taskFailure cfg t started dur now e = FailureOutcome.terminal row →
      t.id ∉ (commitOutcome db t.id row).pending ∧
      (t.id ∈ (commitOutcome db t.id row).completed ↔ row.isSome = true)) := by
  constructor
  · exact commitOutcome_spec db t.id _ hc
      (fun c h => taskComplete_id cfg.retention t started dur now none c h)
  · intro row hrow
    have hterm : row = taskComplete cfg.retention t started dur now (some e) := by
      by_cases hrem : cfg.maxAttempts - t.attempts < 1
      · simp only [taskFailure, if_pos hrem, FailureOutcome.terminal.injEq] at hrow
        exact hrow.symm
      · simp [taskFailure, if_neg hrem] at hrow
    subst hterm
    exact commitOutcome_spec db t.id _ hc
      (fun c h => taskComplete_id cfg.retention t started dur now (some e) c h)

/-- Database contents for the C6 witness. -/
def c6db : DB := { pending := ["a", "b"], completed := ["z"] }

/-- Queue configuration for the C6 witness: completion rows are retained. -/
def c6cfg : QueueConfig :=
  { name := "q", maxAttempts := 1, backoff := 0,
    retention := some { duration := 0, onlyFailed := false, data := none } }

/-- Task for the C6 witness, pending under id "a". -/
def c6task : PTask :=
  { id := "a", queue := "q", task := [], attempts := 0, waitUntil := none,
    createdAt := 0, lastExecutedAt := none, claimedAt := none }

/-- Witness for C6 on a concrete database and a concrete success commit. -/
theorem c6_atomic_move_witness :
    c6task.id ∉ (commitOutcome c6db c6task.id (taskSuccess c6cfg c6task 0 0 0)).pending ∧
    (c6task.id ∈ (commitOutcome c6db c6task.id (taskSuccess c6cfg c6task 0 0 0)).completed ↔
      (taskSuccess c6cfg c6task 0 0 0).isSome = true) :=
  (c6_atomic_move c6db c6cfg c6task 0 0 0 "boom" (by decide)).1

/-- Reduction: the walk stops at index `i` when the worker budget is spent. -/
lemma fetchSplitFrom_cons_budget (w : Nat) (now : Int) (i : Nat) (t : PTask)
    (rest : List PTask) (h : w < i + 1) :
    fetchSplitFrom w now i (t :: rest) = ([], some t) := by
  simp [fetchSplitFrom, h]

/-- Reduction: the walk stops at index `i` when the task there is not ready. -/
lemma fetchSplitFrom_cons_future (w : Nat) (now : Int) (i : Nat) (t : PTask)
    (rest : List PTask) (h1 : ¬ w < i + 1) (h2 : taskIsFuture now t = true) :
    fetchSplitFrom w now i (t :: rest) = ([], some t) := by
  simp [fetchSplitFrom, h1, h2]

/-- Reduction: a ready task within budget is collected and the walk goes on. -/
lemma fetchSplitFrom_cons_ready (w : Nat) (now : Int) (i : Nat) (t : PTask)
    (rest : List PTask) (h1 : ¬ w < i + 1) (h2 : taskIsFuture now t = false) :
    fetchSplitFrom w now i (t :: rest) =
      (t :: (fetchSplitFrom w now (i + 1) rest).1, (fetchSplitFrom w now (i + 1) rest).2) := by
  simp [fetchSplitFrom, h1, h2]

/-- Walking from index `i`, at most `w - i` tasks are collected for claiming. -/
lemma fetchSplitFrom_length (w : Nat) (now : Int) :
    ∀ (ts : List PTask) (i : Nat), (fetchSplitFrom w now i ts).1.length ≤ w - i := by
  intro ts
  induction ts with
  | nil => intro i; simp [fetchSplitFrom]
  | cons t rest ih =>
    intro i
    by_cases hw : w < i + 1
    · simp [fetchSplitFrom_cons_budget w now i t rest hw]
    · by_cases hf : taskIsFuture now t = true
      · simp [fetchSplitFrom_cons_future w now i t rest hw hf]
      · have hf2 : taskIsFuture now t = false := by simpa using hf
        rw [fetchSplitFrom_cons_ready w now i t rest hw hf2]
        simp only [List.length_cons]
        have h1 := ih (i + 1)
        omega

/-- The collected tasks are an initial segment of the fetched list. -/
lemma fetchSplitFrom_take (w : Nat) (now : Int) :
    ∀ (ts : List PTask) (i : Nat),
      (fetchSplitFrom w now i ts).1 = ts.take (fetchSplitFrom w now i ts).1.length := by
  intro ts
  induction ts with
  | nil => intro i; simp [fetchSplitFrom]
  | cons t rest ih =>
    intro i
    by_cases hw : w < i + 1
    · simp [fetchSplitFrom_cons_budget w now i t rest hw]
    · by_cases hf : taskIsFuture now t = true
      · simp [fetchSplitFrom_cons_future w now i t rest hw hf]
      · have hf2 : taskIsFuture now t = false := by simpa using hf
        rw [fetchSplitFrom_cons_ready w now i t rest hw hf2]
        simp only [List.length_cons, List.take_succ_cons, List.cons.injEq, true_and]
        exact ih (i + 1)

/-- Every collected task is ready: its `wait_until` is not in the future. -/
lemma fetchSplitFrom_ready (w : Nat) (now : Int) :
    ∀ (ts : List PTask) (i : Nat) (t : PTask),
      t ∈ (fetchSplitFrom w now i ts).1 → taskIsFuture now t = false := by
  intro ts
  induction ts with
  | nil => intro i t h; simp [fetchSplitFrom] at h
  | cons t0 rest ih =>
    intro i t h
    by_cases hw : w < i + 1
    · rw [fetchSplitFrom_cons_budget w now i t0 rest hw] at h
      simp at h
    · by_cases hf : taskIsFuture now t0 = true
      · rw [fetchSplitFrom_cons_future w now i t0 rest hw hf] at h
        simp at h
      · have hf2 : taskIsFuture now t0 = false := by simpa using hf
        rw [fetchSplitFrom_cons_ready w now i t0 rest hw hf2] at h
        rcases List.mem_cons.1 h with rfl | hm
        · exact hf2
        · exact ih (i + 1) t hm

/-- The designated `next` task sits right after the collected ones, and is
designated either because the worker budget is exhausted there or because its
`wait_until` is in the future. -/
lemma fetchSplitFrom_next (w : Nat) (now : Int) :
    ∀ (ts : List PTask) (i : Nat) (t : PTask),
      (fetchSplitFrom w now i ts).2 = some t →
      ts[(fetchSplitFrom w now i ts).1.length]? = some t ∧
      (w < i + (fetchSplitFrom w now i ts).1.length + 1 ∨ taskIsFuture now t = true) := by
  intro ts
  induction ts with
  | nil => intro i t h; simp [fetchSplitFrom] at h
  | cons t0 rest ih =>
    intro i t h
    by_cases hw : w < i + 1
    · rw [fetchSplitFrom_cons_budget w now i t0 rest hw] at h ⊢
      obtain rfl : t0 = t := by simpa using h
      exact ⟨by simp, Or.inl (by omega)⟩
    · by_cases hf : taskIsFuture now t0 = true
      · rw [fetchSplitFrom_cons_future w now i t0 rest hw hf] at h ⊢
        obtain rfl : t0 = t := by simpa using h
        exact ⟨by simp, Or.inr hf⟩
      · have hf2 : taskIsFuture now t0 = false := by simpa using hf
        rw [fetchSplitFrom_cons_ready w now i t0 rest hw hf2] at h ⊢
        obtain ⟨h1, h2⟩ := ih (i + 1) t h
        refine ⟨by simpa using h1, ?_⟩
        simp only [List.length_cons]
        rcases h2 with h2 | h2
        · exact Or.inl (by omega)
        · exact Or.inr h2

/-- When no `next` task is designated, the whole fetched list was collected. -/
lemma fetchSplitFrom_none (w : Nat) (now : Int) :
    ∀ (ts : List PTask) (i : Nat),
      (fetchSplitFrom w now i ts).2 = none → (fetchSplitFrom w now i ts).1 = ts := by
  intro ts
  induction ts with
  | nil => intro i _; simp [fetchSplitFrom]
  | cons t0 rest ih =>
    intro i h
    by_cases hw : w < i + 1
    · rw [fetchSplitFrom_cons_budget w now i t0 rest hw] at h
      simp at h
    · by_cases hf : taskIsFuture now t0 = true
      · rw [fetchSplitFrom_cons_future w now i t0 rest hw hf] at h
        simp at h
      · have hf2 : taskIsFuture now t0 = false := by simpa using hf
        rw [fetchSplitFrom_cons_ready w now i t0 rest hw hf2] at h ⊢
        simp only [List.cons.injEq, true_and]
        exact ih (i + 1) h

/-- C3: with `W` idle workers the fetch requests at most `fetchLimit W = W + 1`
rows; the walk collects a prefix of the returned list, of length at most `W`,
every collected task ready, and designates as `next` the task immediately
after the collected prefix — either the `(W+1)`-th task or the first one whose
`wait_until` is in the future; only the prefix before `next` is claimed, so at
most `W` tasks are claimed per fetch. -/
theorem c3_fetch_claims (workers : Nat) (now : Int) (tasks : List PTask)
    (_hlen : tasks.length ≤ fetchLimit workers) :
    fetchLimit workers = workers + 1 ∧
    (fetchSplit workers now tasks).1 =
      tasks.take (fetchSplit workers now tasks).1.length ∧
    (fetchSplit workers now tasks).1.length ≤ workers ∧
    (∀ t ∈ (fetchSplit workers now tasks).1, taskIsFuture now t = false) ∧
    (∀ t, (fetchSplit workers now tasks).2 = some t →
      tasks[(fetchSplit workers now tasks).1.length]? = some t ∧
      ((fetchSplit workers now tasks).1.length = workers ∨ taskIsFuture now t = true)) ∧
    ((fetchSplit workers now tasks).2 = none → (fetchSplit workers now tasks).1 = tasks) := by
  simp only [fetchSplit]
  have hlength := fetchSplitFrom_length workers now tasks 0
  refine ⟨rfl, fetchSplitFrom_take workers now tasks 0, by omega,
    fun t ht => fetchSplitFrom_ready workers now tasks 0 t ht, fun t ht => ?_,
    fetchSplitFrom_none workers now tasks 0⟩
  obtain ⟨h1, h2⟩ := fetchSplitFrom_next workers now tasks 0 t ht
  refine ⟨h1, ?_⟩
  rcases h2 with h2 | h2
  · exact Or.inl (by omega)
  · exact Or.inr h2

/-- First task of the C3 witness list: ready, no `wait_until`. -/
def c3t1 : PTask :=
  { id := "a", queue := "q", task := [], attempts := 0, waitUntil := none,
    createdAt := 0, lastExecutedAt := none, claimedAt := none }

/-- Second task of the C3 witness list: `wait_until` already past. -/
def c3t2 : PTask := { c3t1 with id := "b", waitUntil := some 5 }

/-- Third task of the C3 witness list: beyond the worker budget. -/
def c3t3 : PTask := { c3t1 with id := "c", waitUntil := some 99 }

/-- The list the C3 witness fetches (three rows for two idle workers). -/
def c3tasks : List PTask := [c3t1, c3t2, c3t3]

/-- Witness for C3 with `W = 2` at `now = 10`: the first two tasks are
claimed, the third becomes `next`. -/
theorem c3_fetch_claims_witness :
    (fetchSplit 2 10 c3tasks).1 = c3tasks.take (fetchSplit 2 10 c3tasks).1.length ∧
    (fetchSplit 2 10 c3tasks).1.length ≤ 2 ∧
    (c3tasks[(fetchSplit 2 10 c3tasks).1.length]? = some c3t3 ∧
      ((fetchSplit 2 10 c3tasks).1.length = 2 ∨ taskIsFuture 10 c3t3 = true)) :=
  ⟨(c3_fetch_claims 2 10 c3tasks (by decide)).2.1,
   (c3_fetch_claims 2 10 c3tasks (by decide)).2.2.1,
   (c3_fetch_claims 2 10 c3tasks (by decide)).2.2.2.2.1 c3t3 (by decide)⟩

end Backlite
